import Mathlib

/-!
LuckfoxYolov5: a verification development for `main.cc`.

The file embeds the parts of `main.cc` that the specification talks about:

* the letterbox geometry (`letterbox`, lines 55-73), with the C `float`
  arithmetic modelled as exact rationals rounded to IEEE-754 binary32;
* the snapshot server (`web_server`, lines 100-223): request routing by
  `strstr`, the locked image handler, annotation and response framing;
* the capture loop and the exit paths of `main` (lines 225-387).

Definitions come first, theorems follow.
-/

namespace Luckfox

/-! ## Constants of `main.cc` -/

/-- Display width, `DISP_WIDTH` (line 27). -/
def DISP_WIDTH : ℤ := 720

/-- Display height, `DISP_HEIGHT` (line 28). -/
def DISP_HEIGHT : ℤ := 480

/-! ## C `float` arithmetic

A finite `float` is represented by the rational it denotes.  Every operation
computes the exact rational result and rounds it to the nearest value with a
24-bit significand, ties to even (the default IEEE-754 mode).  The exponent is
not bounded: for `int` operands between `1` and `2^31 - 1` every value that
`letterbox` computes lies between `640 / 2^31` and `2^31`, far inside the
normal range of binary32, so neither overflow nor subnormals occur there. -/

/-- Nearest integer, ties to the even neighbour. -/
def roundHalfEven (y : ℚ) : ℤ :=
  let f := ⌊y⌋
  let r := y - f
  if r < 1 / 2 then f
  else if 1 / 2 < r then f + 1
  else if f % 2 = 0 then f else f + 1

/-- Rounding of an exact rational to binary32 (24-bit significand, ties to
even): with `2^e ≤ |x| < 2^(e+1)` the spacing of floats around `x` is
`2^(e-23)`. -/
def roundF32 (x : ℚ) : ℚ :=
  if x = 0 then 0
  else
    let e := Int.log 2 |x|
    let q := (2 : ℚ) ^ (e - 23)
    (roundHalfEven (x / q) : ℚ) * q

/-- The conversion `(float)n` of an `int`. -/
def floatOfInt (n : ℤ) : ℚ := roundF32 (n : ℚ)

/-- The `float` nearest to a decimal constant, such as `0.95f`. -/
def floatOfRat (x : ℚ) : ℚ := roundF32 x

/-- The conversion `(int)x` of a `float`: truncation toward zero (the value
is in the range of `int` wherever the code uses it). -/
def intOfFloat (x : ℚ) : ℤ := if 0 ≤ x then ⌊x⌋ else ⌈x⌉

/-- Binary32 division `a / b`. -/
def f32div (a b : ℚ) : ℚ := roundF32 (a / b)

/-- Binary32 multiplication `a * b`. -/
def f32mul (a b : ℚ) : ℚ := roundF32 (a * b)

/-! ## Letterbox (lines 44-73) -/

/-- The module-level variables that `letterbox` reads and writes
(lines 44-53). -/
structure Globals where
  width : ℤ
  height : ℤ
  model_width : ℤ
  model_height : ℤ
  scale : ℚ
  leftPadding : ℤ
  topPadding : ℤ
  deriving DecidableEq

/-- The values the globals have when the program starts: `width = 720`,
`height = 480`, `model_width = model_height = 640`; `scale`, `leftPadding`
and `topPadding` are zero-initialised. -/
def initialGlobals : Globals :=
  { width := DISP_WIDTH, height := DISP_HEIGHT, model_width := 640, model_height := 640,
    scale := 0, leftPadding := 0, topPadding := 0 }

/-- The dimensions of a `cv::Mat`; the pixel contents are not modelled. -/
structure Mat where
  rows : ℤ
  cols : ℤ
  deriving DecidableEq

/-- A `cv::Rect(x, y, width, height)`. -/
structure Rect where
  x : ℤ
  y : ℤ
  width : ℤ
  height : ℤ
  deriving DecidableEq

/-- What one call of `letterbox` does besides updating the globals: the
image handed to `cv::resize`, the `cv::Size(inputWidth, inputHeight)` it is
resized to, the canvas `letterboxImage` and the region of interest `roi` the
resized image is copied into. -/
structure Letterboxed where
  source : Mat
  inputWidth : ℤ
  inputHeight : ℤ
  canvas : Mat
  roi : Rect
  deriving DecidableEq

/-- Embedding of `cv::Mat letterbox(cv::Mat input)` (lines 55-73).  The scale
and the paddings are computed from the globals `width`, `height`,
`model_width`, `model_height` and stored in the globals `scale`,
`leftPadding`, `topPadding`; `input` only reaches `cv::resize`.  `/ 2` on
`int` is C division (truncating).  The embedding is meant for `width` and
`height` of at least 1: a zero divisor (an infinite `float` in C) is not
modelled. -/
def letterbox (g : Globals) (input : Mat) : Globals × Letterboxed :=
  let scaleX := f32div (floatOfInt g.model_width) (floatOfInt g.width)
  let scaleY := f32div (floatOfInt g.model_height) (floatOfInt g.height)
  let scale := if scaleX < scaleY then scaleX else scaleY
  let inputWidth := intOfFloat (f32mul (floatOfInt g.width) scale)
  let inputHeight := intOfFloat (f32mul (floatOfInt g.height) scale)
  let leftPadding := Int.tdiv (g.model_width - inputWidth) 2
  let topPadding := Int.tdiv (g.model_height - inputHeight) 2
  ({ g with scale := scale, leftPadding := leftPadding, topPadding := topPadding },
   { source := input, inputWidth := inputWidth, inputHeight := inputHeight,
     canvas := { rows := 640, cols := 640 },
     roi := { x := leftPadding, y := topPadding, width := inputWidth, height := inputHeight } })

/-- The globals with the display size replaced by `w × h` (the model size
stays 640×640). -/
def globalsFor (w h : ℤ) : Globals := { initialGlobals with width := w, height := h }

/-- The scale as the specification words it, from the image's own
dimensions: `min(640 / srcW, 640 / srcH)` in `float` arithmetic. -/
def specScale (input : Mat) : ℚ :=
  min (f32div 640 (floatOfInt input.cols)) (f32div 640 (floatOfInt input.rows))

/-! ## Detections (types of the inference collaborator, as `main.cc` uses them) -/

/-- The box of a detection: `det.box.left`, `.top`, `.right`, `.bottom`
(`int` fields). -/
structure image_rect_t where
  left : ℤ
  top : ℤ
  right : ℤ
  bottom : ℤ
  deriving DecidableEq

/-- One element of `current_detections`: the fields `main.cc` reads, `box`,
`prop` (a `float`) and `cls_id`. -/
structure object_detect_result where
  box : image_rect_t
  prop : ℚ
  cls_id : ℤ
  deriving DecidableEq

/-! ## C strings and `printf` conversions -/

/-- The terminator of a C string. -/
def NUL : Char := Char.ofNat 0

/-- The C function `strstr`: `strstr(haystack, needle) != NULL` is
`(strstr haystack needle).isSome`; both arguments are the characters before the terminator and the result is the
offset of the first occurrence. -/
def strstr : List Char → List Char → Option ℕ
  | [], needle => if needle.isEmpty then some 0 else none
  | c :: hay, needle =>
    if needle.isPrefixOf (c :: hay) then some 0 else (strstr hay needle).map (· + 1)

/-- The C string stored in a character array: the characters before the
first terminator, or `none` when the array holds no terminator (reading it as
a string then leaves the array, which is undefined). -/
def cString (mem : List Char) : Option (List Char) :=
  if NUL ∈ mem then some (mem.takeWhile (· ≠ NUL)) else none

/-- The string that `snprintf(buf, size, ...)` leaves in `buf`: the formatted
text cut to `size - 1` characters. -/
def snprintf (size : ℕ) (formatted : List Char) : List Char := formatted.take (size - 1)

/-- The conversion of a `size_t` to `int` (two's complement, 32 bits). -/
def toInt32 (n : ℕ) : ℤ :=
  if n % 2 ^ 32 < 2 ^ 31 then ((n % 2 ^ 32 : ℕ) : ℤ) else ((n % 2 ^ 32 : ℕ) : ℤ) - 2 ^ 32

/-- The conversion `%d`. -/
def fmt_d (n : ℤ) : List Char :=
  if n < 0 then '-' :: Nat.toDigits 10 n.natAbs else Nat.toDigits 10 n.natAbs

/-- The conversion `%.1f`: the value rounded to one decimal (nearest, ties to
even), printed as integer part, point and one digit, with a sign for negative
values. -/
def fmt_1f (x : ℚ) : List Char :=
  let k := (roundHalfEven (|x| * 10)).natAbs
  let body := Nat.toDigits 10 (k / 10) ++ '.' :: Nat.toDigits 10 (k % 10)
  if x < 0 then '-' :: body else body

/-! ## The snapshot server (lines 100-223) -/

/-- Size of the request buffer, `char buffer[1024]` (line 103). -/
def BUFFER_SIZE : ℕ := 1024

/-- The effect of `read(client_socket, buffer, sizeof(buffer))` when the call
stores the bytes `data`: at most 1024 of them overwrite the front of the
buffer, the rest of the buffer keeps what it held.  Nothing is appended and
the return value is not used. -/
def readInto (buffer data : List Char) : List Char :=
  data.take BUFFER_SIZE ++ buffer.drop (data.take BUFFER_SIZE).length

/-- The two answers of the server. -/
inductive Response
  | image
  | html
  deriving DecidableEq

/-- The string searched for at line 152. -/
def imageNeedle : List Char := "GET /image.jpg".toList

/-- The test of line 152, `strstr(buffer, "GET /image.jpg") != NULL`, on the
buffer as it is after the read; `none` when the buffer holds no terminator. -/
def route (buffer : List Char) : Option Response :=
  (cString buffer).map fun s => if (strstr s imageNeedle).isSome then Response.image else Response.html

/-- The events of one connection that the claims talk about. -/
inductive Ev
  | lock
  | unlock
  | copyFrame
  | rectangle (p1 p2 : ℤ × ℤ)
  | putText (label : List Char) (org : ℤ × ℤ)
  | imencode
  | write (bytes : List Char)
  | close
  deriving DecidableEq

/-- The label of lines 172-174:
`snprintf(label, sizeof(label), "%s %.1f%%", coco_cls_to_name(det.cls_id), det.prop * 100)`
with `char label[128]`; the product is a `float` multiplication.  The class
name table `coco_cls_to_name` belongs to the inference collaborator and is a
parameter. -/
def label (coco_cls_to_name : ℤ → List Char) (det : object_detect_result) : List Char :=
  snprintf 128 (coco_cls_to_name det.cls_id ++ ' ' :: fmt_1f (f32mul det.prop 100) ++ ['%'])

/-- The body of the loop of lines 166-180 for one detection: `cv::rectangle`
between `(left, top)` and `(right, bottom)`, then `cv::putText` of the label at
`(left, top - 10)`.  The subtraction is the one of `int` as long as `top` is at
least `INT_MIN + 10`. -/
def drawDetection (coco_cls_to_name : ℤ → List Char) (det : object_detect_result) : List Ev :=
  [Ev.rectangle (det.box.left, det.box.top) (det.box.right, det.box.bottom),
   Ev.putText (label coco_cls_to_name det) (det.box.left, det.box.top - 10)]

/-- The loop `for (const auto& det : current_detections)` of lines 166-180. -/
def drawLoop (coco_cls_to_name : ℤ → List Char) : List object_detect_result → List Ev
  | [] => []
  | det :: rest => drawDetection coco_cls_to_name det ++ drawLoop coco_cls_to_name rest

/-- Lines 165-181: the loop runs only when `current_detections` is not
empty. -/
def drawDetections (coco_cls_to_name : ℤ → List Char)
    (current_detections : List object_detect_result) : List Ev :=
  if !current_detections.isEmpty then drawLoop coco_cls_to_name current_detections else []

/-- The header of lines 187-193: `content_length` is the `int` made of
`jpeg_buffer.size()`, and `snprintf` writes into `char response_header[512]`. -/
def response_header (jpeg_buffer : List Char) : List Char :=
  snprintf 512
    ("HTTP/1.1 200 OK\r\nContent-Type: image/jpeg\r\nContent-Length: ".toList
      ++ fmt_d (toInt32 jpeg_buffer.length) ++ "\r\nConnection: close\r\n\r\n".toList)

/-- The image branch, lines 153-197, in program order: lock, copy of the
current frame, drawing of the detections, JPEG encoding, unlock, then the two
writes.  `jpeg_buffer` is what `cv::imencode` produced. -/
def imageHandler (coco_cls_to_name : ℤ → List Char)
    (current_detections : List object_detect_result) (jpeg_buffer : List Char) : List Ev :=
  [Ev.lock, Ev.copyFrame] ++ drawDetections coco_cls_to_name current_detections
    ++ [Ev.imencode, Ev.unlock,
        Ev.write (response_header jpeg_buffer), Ev.write jpeg_buffer]

/-- The static page of lines 201-214. -/
def html_response : List Char :=
  ("HTTP/1.1 200 OK\r\nContent-Type: text/html\r\nConnection: close\r\n\r\n"
    ++ "<html><head><title>Object Detection</title></head><body>"
    ++ "<h1>Live Object Detection</h1>"
    ++ "<img src=\x27/image.jpg\x27 style=\x27width:640px;\x27/>"
    ++ "<script>"
    ++ "setInterval(function()\x7b"
    ++ "  document.querySelector(\x27img\x27).src = \x27/image.jpg?\x27 + Date.now();"
    ++ "\x7d, 100);"
    ++ "</script>"
    ++ "</body></html>").toList

/-- The answer to a routed request, lines 152-217. -/
def respond (coco_cls_to_name : ℤ → List Char)
    (current_detections : List object_detect_result) (jpeg_buffer : List Char) :
    Response → List Ev
  | Response.image => imageHandler coco_cls_to_name current_detections jpeg_buffer
  | Response.html => [Ev.write html_response]

/-- One turn of the accept loop, lines 142-219, for a connection whose read
stores `data`: the buffer after the read, and the events of the answer followed
by `close` (`none` when the buffer holds no terminator). -/
def handleConnection (coco_cls_to_name : ℤ → List Char)
    (current_detections : List object_detect_result) (jpeg_buffer : List Char)
    (buffer data : List Char) : List Char × Option (List Ev) :=
  (readInto buffer data,
   (route (readInto buffer data)).map fun r =>
     respond coco_cls_to_name current_detections jpeg_buffer r ++ [Ev.close])

/-- The routing decisions of the accept loop (lines 141-220) for a sequence
of connections, each given by the bytes its `read` stores; the buffer is
declared outside the loop (line 103) and carried from one connection to the
next. -/
def serveAll : List Char → List (List Char) → List (Option Response)
  | _, [] => []
  | buffer, data :: rest => route (readInto buffer data) :: serveAll (readInto buffer data) rest

/-- A buffer that holds only terminators. -/
def zeroBuffer : List Char := List.replicate BUFFER_SIZE NUL

/-- The bytes handed to `write`, in order. -/
def written : List Ev → List Char
  | [] => []
  | Ev.write bytes :: rest => bytes ++ written rest
  | _ :: rest => written rest

/-- The events executed while `frame_mutex` is held (`held` tells whether it
is held at the start of the trace). -/
def underLock : Bool → List Ev → List Ev
  | _, [] => []
  | _, Ev.lock :: rest => underLock true rest
  | _, Ev.unlock :: rest => underLock false rest
  | held, e :: rest => if held then e :: underLock held rest else underLock held rest

/-- The events executed while `frame_mutex` is not held. -/
def outsideLock : Bool → List Ev → List Ev
  | _, [] => []
  | _, Ev.lock :: rest => outsideLock true rest
  | _, Ev.unlock :: rest => outsideLock false rest
  | held, e :: rest => if held then outsideLock held rest else e :: outsideLock held rest

/-- Drawing and encoding events. -/
def isDrawOrEncode : Ev → Bool
  | Ev.rectangle _ _ => true
  | Ev.putText _ _ => true
  | Ev.imencode => true
  | _ => false

/-- The request path as the specification reads a request: the second
blank-separated word of the request, cut at the first `?`. -/
def specRequestPath (request : List Char) : List Char :=
  (((request.dropWhile (· ≠ ' ')).drop 1).takeWhile (· ≠ ' ')).takeWhile (· ≠ '?')

/-- The specification's test for the image resource `/image.jpg`. -/
def specIsImagePath (request : List Char) : Bool :=
  specRequestPath request == "/image.jpg".toList

/-! ## `main` (lines 225-387) -/

/-- The switches of `struct AppConfig` (lines 31-35). -/
structure AppConfig where
  show_help : Bool
  enable_yolo : Bool
  enable_web : Bool
  deriving DecidableEq

/-- The configuration `main` starts from: every switch off. -/
def defaultConfig : AppConfig := { show_help := false, enable_yolo := false, enable_web := false }

/-- Embedding of `parse_arguments` (lines 75-91) over the values that the calls of
`getopt_long` return before `-1`: `y`, `w`, or `?` (help, which is also what
`getopt_long` returns for an unknown option). -/
def parse_arguments : List Char → AppConfig → AppConfig
  | [], config => config
  | opt :: rest, config =>
    parse_arguments rest
      (if opt = 'y' then { config with enable_yolo := true }
       else if opt = 'w' then { config with enable_web := true }
       else if opt = '?' then { config with show_help := true }
       else config)

/-- The outcomes of the external calls whose result `main` tests before the
loop. -/
structure Env where
  pthread_create_ok : Bool
  init_yolov5_model_ok : Bool
  RK_MPI_SYS_Init_ok : Bool
  vi_dev_init_ok : Bool
  vi_chn_init_ok : Bool
  deriving DecidableEq

/-- The calls of `main` that start or use a subsystem, and the iterations of
its loop. -/
inductive Act
  | print_help
  | pthread_create
  | init_yolov5_model
  | init_post_process
  | stopRkLunch
  | SAMPLE_COMM_ISP_Init
  | SAMPLE_COMM_ISP_Run
  | RK_MPI_SYS_Init
  | RK_MPI_MB_CreatePool
  | RK_MPI_MB_GetMB
  | vi_dev_init
  | vi_chn_init
  | loopIteration (i : ℕ)
  deriving DecidableEq

/-- What `main` has done after a number of loop iterations: the calls made
so far, and the value returned (`none` while it is in the loop). -/
structure MainRun where
  trace : List Act
  status : Option ℤ
  deriving DecidableEq

/-- Lines 233-239: the web thread is started when enabled; a failed start
clears `enable_web`. -/
def startWeb (config : AppConfig) (env : Env) : AppConfig × List Act :=
  if config.enable_web then
    (if env.pthread_create_ok then config else { config with enable_web := false },
     [Act.pthread_create])
  else (config, [])

/-- Lines 241-254: the model is loaded when enabled; a failed load clears
`enable_yolo`, a successful one is followed by `init_post_process`. -/
def startYolo (config : AppConfig) (env : Env) : AppConfig × List Act :=
  if config.enable_yolo then
    if env.init_yolov5_model_ok then (config, [Act.init_yolov5_model, Act.init_post_process])
    else ({ config with enable_yolo := false }, [Act.init_yolov5_model])
  else (config, [])

/-- Embedding of `main` (lines 225-387), observed after `iterations` turns of
the `while (1)` loop of line 310.  The loop has no `break` and no `return`, so
the code after it is never reached and a run that enters the loop has no
status. -/
def main (opts : List Char) (env : Env) (iterations : ℕ) : MainRun :=
  let config := parse_arguments opts defaultConfig
  if config.show_help then { trace := [Act.print_help], status := some 0 }
  else
    let web := startWeb config env
    let yolo := startYolo web.1 env
    let t1 := web.2 ++ yolo.2
      ++ [Act.stopRkLunch, Act.SAMPLE_COMM_ISP_Init, Act.SAMPLE_COMM_ISP_Run, Act.RK_MPI_SYS_Init]
    if !env.RK_MPI_SYS_Init_ok then { trace := t1, status := some (-1) }
    else
      let t2 := t1 ++ [Act.RK_MPI_MB_CreatePool, Act.RK_MPI_MB_GetMB, Act.vi_dev_init]
      if !env.vi_dev_init_ok then { trace := t2, status := some (-1) }
      else
        let t3 := t2 ++ [Act.vi_chn_init]
        if !env.vi_chn_init_ok then { trace := t3, status := some (-1) }
        else { trace := t3 ++ (List.range iterations).map Act.loopIteration, status := none }

/-! ## The shared frame state and its two users

`current_frame` and `current_detections` (lines 40-42) are written by the
capture loop in two critical sections of one iteration (lines 324-326 and
336-341) and read by the image handler in one (lines 153-184).  `frame_mutex`
makes each critical section atomic, so a run is a sequence of such sections.
Each value is represented by the number of the loop iteration that wrote it
(`0` before the first write). -/

/-- Where the capture loop stands: at the top of an iteration, or between
its two critical sections, while the inference of lines 330-332 runs. -/
inductive CapturePc
  | top
  | inferring
  deriving DecidableEq

/-- What an image request copied and drew: the iterations that wrote the
frame and the detections it read, and whether the capture loop was between
its two critical sections at that moment. -/
structure Snapshot where
  frame : ℕ
  detections : ℕ
  duringInference : Bool
  deriving DecidableEq

/-- The shared state, the position of the capture loop, and two histories:
the iterations that acquired a frame, and what each image request read. -/
structure Sys where
  current_frame : ℕ
  current_detections : ℕ
  pc : CapturePc
  iteration : ℕ
  acquired : List ℕ
  served : List Snapshot
  deriving DecidableEq

/-- The state at program start. -/
def Sys.init : Sys :=
  { current_frame := 0, current_detections := 0, pc := CapturePc.top, iteration := 0,
    acquired := [], served := [] }

/-- One step of the capture loop (lines 310-364).  At the top of an
iteration `frameOk` says whether `RK_MPI_VI_GetChnFrame` succeeded: if not,
the iteration does nothing; if so, the frame is stored when the web preview
is enabled and, when detection is enabled, the loop goes on to the inference.
After the inference the detections are stored when the web preview is
enabled. -/
def captureStep (config : AppConfig) (s : Sys) (frameOk : Bool) : Sys :=
  match s.pc with
  | CapturePc.top =>
    if frameOk then
      { s with
        iteration := s.iteration + 1
        acquired := (s.iteration + 1) :: s.acquired
        current_frame := if config.enable_web then s.iteration + 1 else s.current_frame
        pc := if config.enable_yolo then CapturePc.inferring else CapturePc.top }
    else { s with iteration := s.iteration + 1 }
  | CapturePc.inferring =>
    { s with
      current_detections := if config.enable_web then s.iteration else s.current_detections
      pc := CapturePc.top }

/-- The critical section of an image request (lines 153-184): it reads
`current_frame` and `current_detections` as they are at that moment. -/
def imageRequest (s : Sys) : Sys :=
  { s with
    served := { frame := s.current_frame, detections := s.current_detections,
                duringInference := decide (s.pc = CapturePc.inferring) } :: s.served }

/-- The two kinds of step of a run. -/
inductive Step
  | capture (frameOk : Bool)
  | request
  deriving DecidableEq

/-- One step of the system. -/
def step (config : AppConfig) (s : Sys) : Step → Sys
  | Step.capture frameOk => captureStep config s frameOk
  | Step.request => imageRequest s

/-- A run: the steps of a schedule, in order. -/
def run (config : AppConfig) (s : Sys) (schedule : List Step) : Sys :=
  schedule.foldl (step config) s

/-- The invariant of the runs with web preview and detection enabled. -/
def Consistent (s : Sys) : Prop :=
  s.current_detections ≤ s.current_frame ∧
  (s.pc = CapturePc.top → s.current_frame = s.current_detections) ∧
  (s.pc = CapturePc.inferring →
    s.current_frame = s.iteration ∧ s.current_detections < s.current_frame) ∧
  s.current_frame ≤ s.iteration ∧
  (∀ k ∈ s.acquired, k ≤ s.current_detections ∨ k = s.current_frame) ∧
  (s.current_frame = 0 ∨ s.current_frame ∈ s.acquired) ∧
  (s.current_detections = 0 ∨ s.current_detections ∈ s.acquired) ∧
  (∀ snap ∈ s.served,
    snap.detections ≤ snap.frame ∧ snap.frame ≤ s.current_frame ∧
    (snap.duringInference = false → snap.frame = snap.detections) ∧
    (snap.duringInference = true → snap.detections < snap.frame) ∧
    (snap.frame = 0 ∨ snap.frame ∈ s.acquired) ∧
    (snap.detections = 0 ∨ snap.detections ∈ s.acquired) ∧
    ∀ k ∈ s.acquired, k ≤ snap.detections ∨ snap.frame ≤ k)

/-! ## Rounding lemmas -/

theorem roundHalfEven_le (y : ℚ) : (roundHalfEven y : ℚ) ≤ y + 1 / 2 := by
  have h1 : (⌊y⌋ : ℚ) ≤ y := Int.floor_le y
  unfold roundHalfEven
  simp only
  split_ifs with a b c
  · linarith
  · push_cast; linarith
  · linarith
  · push_cast; linarith

theorem roundHalfEven_ge (y : ℚ) : y - 1 / 2 ≤ (roundHalfEven y : ℚ) := by
  have h1 : (⌊y⌋ : ℚ) ≤ y := Int.floor_le y
  have h2 : y < ⌊y⌋ + 1 := Int.lt_floor_add_one y
  unfold roundHalfEven
  simp only
  split_ifs with a b c
  · linarith
  · push_cast; linarith
  · linarith
  · push_cast; linarith

theorem roundHalfEven_eq (y : ℚ) (k : ℤ) (h1 : (k : ℚ) - 1 / 2 < y) (h2 : y < k + 1 / 2) :
    roundHalfEven y = k := by
  have ha := roundHalfEven_le y
  have hb := roundHalfEven_ge y
  have h3 : ((roundHalfEven y : ℤ) : ℚ) < ((k + 1 : ℤ) : ℚ) := by push_cast; linarith
  have h4 : ((k - 1 : ℤ) : ℚ) < ((roundHalfEven y : ℤ) : ℚ) := by push_cast; linarith
  have h5 := Int.cast_lt.mp h3
  have h6 := Int.cast_lt.mp h4
  omega

theorem roundF32_eq (x : ℚ) (e k : ℤ) (hlo : (2 : ℚ) ^ e ≤ x) (hhi : x < (2 : ℚ) ^ (e + 1))
    (h1 : (k : ℚ) - 1 / 2 < x / (2 : ℚ) ^ (e - 23))
    (h2 : x / (2 : ℚ) ^ (e - 23) < k + 1 / 2) :
    roundF32 x = k * (2 : ℚ) ^ (e - 23) := by
  have hpos : 0 < x := lt_of_lt_of_le (zpow_pos (by norm_num) e) hlo
  have habs : |x| = x := abs_of_pos hpos
  have hlog : Int.log 2 x = e := by
    apply le_antisymm
    · have := (Int.lt_zpow_iff_log_lt (b := 2) (by norm_num) hpos (x := e + 1)).mp
        (by exact_mod_cast hhi)
      omega
    · exact (Int.zpow_le_iff_le_log (b := 2) (by norm_num) hpos).mp (by exact_mod_cast hlo)
  unfold roundF32
  rw [if_neg hpos.ne']
  simp only [habs, hlog]
  rw [roundHalfEven_eq _ k h1 h2]

theorem roundF32_le (x : ℚ) (hx : 0 ≤ x) : roundF32 x ≤ x * (1 + 1 / 8388608) := by
  rcases hx.eq_or_lt with h0 | hpos
  · subst h0; simp [roundF32]
  · have habs : |x| = x := abs_of_pos hpos
    have hlog : (2 : ℚ) ^ Int.log 2 x ≤ x := by
      exact_mod_cast Int.zpow_log_le_self (b := 2) (by norm_num) hpos
    unfold roundF32
    rw [if_neg hpos.ne']
    simp only [habs]
    set e := Int.log 2 x with he
    have hq : (0 : ℚ) < (2 : ℚ) ^ (e - 23) := zpow_pos (by norm_num) _
    have hqe : (2 : ℚ) ^ (e - 23) = (2 : ℚ) ^ e / 8388608 := by
      rw [zpow_sub₀ (by norm_num)]; norm_num
    have hr := roundHalfEven_le (x / (2 : ℚ) ^ (e - 23))
    have hmul : (roundHalfEven (x / (2 : ℚ) ^ (e - 23)) : ℚ) * (2 : ℚ) ^ (e - 23)
        ≤ (x / (2 : ℚ) ^ (e - 23) + 1 / 2) * (2 : ℚ) ^ (e - 23) :=
      mul_le_mul_of_nonneg_right hr hq.le
    have hcancel : (x / (2 : ℚ) ^ (e - 23) + 1 / 2) * (2 : ℚ) ^ (e - 23)
        = x + (2 : ℚ) ^ (e - 23) / 2 := by
      field_simp
      ring
    rw [hcancel] at hmul
    rw [hqe] at hmul ⊢
    linarith

theorem roundF32_ge (x : ℚ) (hx : 0 ≤ x) : x * (1 - 1 / 8388608) ≤ roundF32 x := by
  rcases hx.eq_or_lt with h0 | hpos
  · subst h0; simp [roundF32]
  · have habs : |x| = x := abs_of_pos hpos
    have hlog : (2 : ℚ) ^ Int.log 2 x ≤ x := by
      exact_mod_cast Int.zpow_log_le_self (b := 2) (by norm_num) hpos
    unfold roundF32
    rw [if_neg hpos.ne']
    simp only [habs]
    set e := Int.log 2 x with he
    have hq : (0 : ℚ) < (2 : ℚ) ^ (e - 23) := zpow_pos (by norm_num) _
    have hqe : (2 : ℚ) ^ (e - 23) = (2 : ℚ) ^ e / 8388608 := by
      rw [zpow_sub₀ (by norm_num)]; norm_num
    have hr := roundHalfEven_ge (x / (2 : ℚ) ^ (e - 23))
    have hmul : (x / (2 : ℚ) ^ (e - 23) - 1 / 2) * (2 : ℚ) ^ (e - 23)
        ≤ (roundHalfEven (x / (2 : ℚ) ^ (e - 23)) : ℚ) * (2 : ℚ) ^ (e - 23) :=
      mul_le_mul_of_nonneg_right hr hq.le
    have hcancel : (x / (2 : ℚ) ^ (e - 23) - 1 / 2) * (2 : ℚ) ^ (e - 23)
        = x - (2 : ℚ) ^ (e - 23) / 2 := by
      field_simp
      ring
    rw [hcancel] at hmul
    rw [hqe] at hmul ⊢
    linarith

theorem roundF32_nonneg (x : ℚ) (hx : 0 ≤ x) : 0 ≤ roundF32 x := by
  have h := roundF32_ge x hx
  have : 0 ≤ x * (1 - 1 / 8388608) := mul_nonneg hx (by norm_num)
  linarith

theorem roundF32_pos (x : ℚ) (hx : 0 < x) : 0 < roundF32 x := by
  have h := roundF32_ge x hx.le
  have : 0 < x * (1 - 1 / 8388608) := mul_pos hx (by norm_num)
  linarith

/-- A concrete rounding: `x` rounds to the float `v` once the binade `e` and
the significand `k` are exhibited. -/
theorem roundF32_eval (x v : ℚ) (e k : ℤ) (hlo : (2 : ℚ) ^ e ≤ x) (hhi : x < (2 : ℚ) ^ (e + 1))
    (h1 : (k : ℚ) - 1 / 2 < x / (2 : ℚ) ^ (e - 23))
    (h2 : x / (2 : ℚ) ^ (e - 23) < k + 1 / 2)
    (hv : (k : ℚ) * (2 : ℚ) ^ (e - 23) = v) : roundF32 x = v := by
  rw [roundF32_eq x e k hlo hhi h1 h2, hv]

theorem roundF32_640 : roundF32 640 = 640 := by
  apply roundF32_eval 640 640 9 10485760 <;> norm_num

theorem roundF32_720 : roundF32 720 = 720 := by
  apply roundF32_eval 720 720 9 11796480 <;> norm_num

theorem roundF32_480 : roundF32 480 = 480 := by
  apply roundF32_eval 480 480 8 15728640 <;> norm_num

theorem roundF32_scaleX : roundF32 (640 / 720) = 14913081 / 16777216 := by
  apply roundF32_eval (640 / 720) (14913081 / 16777216) (-1) 14913081 <;> norm_num

theorem roundF32_scaleY : roundF32 (640 / 480) = 11184811 / 8388608 := by
  apply roundF32_eval (640 / 480) (11184811 / 8388608) 0 11184811 <;> norm_num

theorem roundF32_scaledW : roundF32 (720 * (14913081 / 16777216)) = 640 := by
  apply roundF32_eval (720 * (14913081 / 16777216)) 640 9 10485760 <;> norm_num

theorem roundF32_scaledH : roundF32 (480 * (14913081 / 16777216)) = 13981013 / 32768 := by
  apply roundF32_eval (480 * (14913081 / 16777216)) (13981013 / 32768) 8 13981013 <;> norm_num

theorem intOfFloat_of_nonneg (x : ℚ) (n : ℤ) (h0 : 0 ≤ x) (h1 : (n : ℚ) ≤ x) (h2 : x < n + 1) :
    intOfFloat x = n := by
  unfold intOfFloat
  rw [if_pos h0, Int.floor_eq_iff]
  exact ⟨h1, h2⟩

/-! ## Letterbox geometry -/

/-- A scaled extent `(int)((float)w * s)` lies in `[0, 640]` whenever the
scale `s` is non-negative and at most the axis ratio `640 / (float)w`. -/
theorem scaled_extent_bounds (w : ℤ) (hw : 1 ≤ w) (s : ℚ) (hs0 : 0 ≤ s)
    (hs : s ≤ f32div 640 (floatOfInt w)) :
    0 ≤ intOfFloat (f32mul (floatOfInt w) s) ∧ intOfFloat (f32mul (floatOfInt w) s) ≤ 640 := by
  have hwq : (0 : ℚ) < (w : ℚ) := by exact_mod_cast (by omega : (0 : ℤ) < w)
  have hW : 0 < floatOfInt w := roundF32_pos _ hwq
  set W := floatOfInt w with hWdef
  have hX : f32div 640 W ≤ 640 / W * (1 + 1 / 8388608) :=
    roundF32_le _ (div_nonneg (by norm_num) hW.le)
  have hWs0 : 0 ≤ W * s := mul_nonneg hW.le hs0
  have hP0 : 0 ≤ f32mul W s := roundF32_nonneg _ hWs0
  have hP : f32mul W s ≤ W * s * (1 + 1 / 8388608) := roundF32_le _ hWs0
  have hWX : W * s ≤ 640 * (1 + 1 / 8388608) := by
    calc W * s ≤ W * f32div 640 W := mul_le_mul_of_nonneg_left hs hW.le
      _ ≤ W * (640 / W * (1 + 1 / 8388608)) := mul_le_mul_of_nonneg_left hX hW.le
      _ = 640 * (1 + 1 / 8388608) := by field_simp; ring
  have hlt : f32mul W s < 641 := by
    have : W * s * (1 + 1 / 8388608) ≤ 640 * (1 + 1 / 8388608) * (1 + 1 / 8388608) :=
      mul_le_mul_of_nonneg_right hWX (by norm_num)
    have h641 : (640 : ℚ) * (1 + 1 / 8388608) * (1 + 1 / 8388608) < 641 := by norm_num
    linarith
  unfold intOfFloat
  rw [if_pos hP0]
  constructor
  · exact Int.floor_nonneg.mpr hP0
  · have : ⌊f32mul W s⌋ < 641 := Int.floor_lt.mpr (by exact_mod_cast hlt)
    omega

/-- The scale `letterbox` stores, for display size `w × h` and the 640×640
model size. -/
theorem letterbox_scale (w h : ℤ) (input : Mat) :
    (letterbox (globalsFor w h) input).1.scale
      = min (f32div 640 (floatOfInt w)) (f32div 640 (floatOfInt h)) := by
  simp only [letterbox, globalsFor, initialGlobals, floatOfInt, Int.cast_ofNat, roundF32_640]
  rcases lt_or_le (f32div 640 (roundF32 (w : ℚ))) (f32div 640 (roundF32 (h : ℚ))) with hlt | hle
  · rw [if_pos hlt, min_eq_left hlt.le]
  · rw [if_neg (not_lt.mpr hle), min_eq_right hle]

/-- Shape of the result of `letterbox` for display size `w × h`: both scaled
extents lie in `[0, 640]`, the paddings are half the remaining space (rounded
down), the canvas is 640×640 and the region of interest is built from the
paddings and the scaled extents. -/
theorem letterbox_shape (w h : ℤ) (hw : 1 ≤ w) (hh : 1 ≤ h) (input : Mat) :
    ∃ iw ih : ℤ, 0 ≤ iw ∧ iw ≤ 640 ∧ 0 ≤ ih ∧ ih ≤ 640 ∧
      (letterbox (globalsFor w h) input).2 =
        { source := input, inputWidth := iw, inputHeight := ih,
          canvas := { rows := 640, cols := 640 },
          roi := { x := (640 - iw) / 2, y := (640 - ih) / 2, width := iw, height := ih } } ∧
      (letterbox (globalsFor w h) input).1.leftPadding = (640 - iw) / 2 ∧
      (letterbox (globalsFor w h) input).1.topPadding = (640 - ih) / 2 ∧
      iw = intOfFloat (f32mul (floatOfInt w) (letterbox (globalsFor w h) input).1.scale) ∧
      ih = intOfFloat (f32mul (floatOfInt h) (letterbox (globalsFor w h) input).1.scale) := by
  have hsc := letterbox_scale w h input
  set s := (letterbox (globalsFor w h) input).1.scale with hs
  have hwq : (0 : ℚ) < (w : ℚ) := by exact_mod_cast (by omega : (0 : ℤ) < w)
  have hhq : (0 : ℚ) < (h : ℚ) := by exact_mod_cast (by omega : (0 : ℤ) < h)
  have hX0 : 0 ≤ f32div 640 (floatOfInt w) :=
    roundF32_nonneg _ (div_nonneg (by norm_num) (roundF32_pos _ hwq).le)
  have hY0 : 0 ≤ f32div 640 (floatOfInt h) :=
    roundF32_nonneg _ (div_nonneg (by norm_num) (roundF32_pos _ hhq).le)
  have hs0 : 0 ≤ s := by rw [hsc]; exact le_min hX0 hY0
  have hsx : s ≤ f32div 640 (floatOfInt w) := by rw [hsc]; exact min_le_left _ _
  have hsy : s ≤ f32div 640 (floatOfInt h) := by rw [hsc]; exact min_le_right _ _
  obtain ⟨hw0, hw1⟩ := scaled_extent_bounds w hw s hs0 hsx
  obtain ⟨hh0, hh1⟩ := scaled_extent_bounds h hh s hs0 hsy
  refine ⟨intOfFloat (f32mul (floatOfInt w) s), intOfFloat (f32mul (floatOfInt h) s),
    hw0, hw1, hh0, hh1, ?_, ?_, ?_, rfl, rfl⟩
  · rw [← Int.tdiv_eq_ediv (by omega) (by norm_num), ← Int.tdiv_eq_ediv (by omega) (by norm_num)]
    rfl
  · rw [← Int.tdiv_eq_ediv (by omega) (by norm_num)]
    rfl
  · rw [← Int.tdiv_eq_ediv (by omega) (by norm_num)]
    rfl

/-- The configured display size 720×480: scaled size 640×426, padding
`(0, 107)`. -/
theorem letterbox_configured (input : Mat) :
    (letterbox initialGlobals input).2 =
      { source := input, inputWidth := 640, inputHeight := 426,
        canvas := { rows := 640, cols := 640 },
        roi := { x := 0, y := 107, width := 640, height := 426 } } ∧
    (letterbox initialGlobals input).1 =
      { initialGlobals with scale := 14913081 / 16777216, leftPadding := 0, topPadding := 107 } := by
  have hlt : (14913081 : ℚ) / 16777216 < 11184811 / 8388608 := by norm_num
  have hW : intOfFloat (640 : ℚ) = 640 := by
    apply intOfFloat_of_nonneg <;> norm_num
  have hH : intOfFloat ((13981013 : ℚ) / 32768) = 426 := by
    apply intOfFloat_of_nonneg <;> norm_num
  simp only [letterbox, initialGlobals, DISP_WIDTH, DISP_HEIGHT, floatOfInt, f32div, f32mul,
    Int.cast_ofNat, roundF32_640, roundF32_720, roundF32_480, roundF32_scaleX, roundF32_scaleY,
    if_pos hlt, roundF32_scaledW, roundF32_scaledH, hW, hH]
  constructor <;> rfl

theorem roundF32_one : roundF32 1 = 1 := by
  apply roundF32_eval 1 1 0 8388608 <;> norm_num

/-- C2: for every display size `w × h` with `w, h ≥ 1` and the 640×640 model
size, `letterbox` stores `scale = min(640/w, 640/h)`, resizes to
`(trunc(w*scale), trunc(h*scale))`, pads by half the remaining space (integer
division), produces a canvas of exactly 640×640, and twice each padding plus
the scaled extent differs from 640 by at most one. -/
theorem letterbox_padding_arithmetic (w h : ℤ) (hw : 1 ≤ w) (hh : 1 ≤ h) (input : Mat) :
    (letterbox (globalsFor w h) input).2.canvas = { rows := 640, cols := 640 } ∧
    (letterbox (globalsFor w h) input).1.scale
      = min (f32div 640 (floatOfInt w)) (f32div 640 (floatOfInt h)) ∧
    (letterbox (globalsFor w h) input).2.inputWidth
      = intOfFloat (f32mul (floatOfInt w) (letterbox (globalsFor w h) input).1.scale) ∧
    (letterbox (globalsFor w h) input).2.inputHeight
      = intOfFloat (f32mul (floatOfInt h) (letterbox (globalsFor w h) input).1.scale) ∧
    (letterbox (globalsFor w h) input).1.leftPadding
      = (640 - (letterbox (globalsFor w h) input).2.inputWidth) / 2 ∧
    (letterbox (globalsFor w h) input).1.topPadding
      = (640 - (letterbox (globalsFor w h) input).2.inputHeight) / 2 ∧
    |640 - (2 * (letterbox (globalsFor w h) input).1.leftPadding
        + (letterbox (globalsFor w h) input).2.inputWidth)| ≤ 1 ∧
    |640 - (2 * (letterbox (globalsFor w h) input).1.topPadding
        + (letterbox (globalsFor w h) input).2.inputHeight)| ≤ 1 := by
  obtain ⟨iw, ih, hw0, hw1, hh0, hh1, hout, hl, ht, hiw, hih⟩ := letterbox_shape w h hw hh input
  rw [hl, ht, hout]
  refine ⟨rfl, letterbox_scale w h input, hiw, hih, rfl, rfl, ?_, ?_⟩
  · show |640 - (2 * ((640 - iw) / 2) + iw)| ≤ 1
    rw [abs_le]; constructor <;> omega
  · show |640 - (2 * ((640 - ih) / 2) + ih)| ≤ 1
    rw [abs_le]; constructor <;> omega

theorem letterbox_padding_arithmetic_witness :
    (letterbox (globalsFor 133 7) ⟨7, 133⟩).2.canvas = { rows := 640, cols := 640 } ∧
    (letterbox (globalsFor 133 7) ⟨7, 133⟩).1.scale
      = min (f32div 640 (floatOfInt 133)) (f32div 640 (floatOfInt 7)) ∧
    (letterbox (globalsFor 133 7) ⟨7, 133⟩).2.inputWidth
      = intOfFloat (f32mul (floatOfInt 133) (letterbox (globalsFor 133 7) ⟨7, 133⟩).1.scale) ∧
    (letterbox (globalsFor 133 7) ⟨7, 133⟩).2.inputHeight
      = intOfFloat (f32mul (floatOfInt 7) (letterbox (globalsFor 133 7) ⟨7, 133⟩).1.scale) ∧
    (letterbox (globalsFor 133 7) ⟨7, 133⟩).1.leftPadding
      = (640 - (letterbox (globalsFor 133 7) ⟨7, 133⟩).2.inputWidth) / 2 ∧
    (letterbox (globalsFor 133 7) ⟨7, 133⟩).1.topPadding
      = (640 - (letterbox (globalsFor 133 7) ⟨7, 133⟩).2.inputHeight) / 2 ∧
    |640 - (2 * (letterbox (globalsFor 133 7) ⟨7, 133⟩).1.leftPadding
        + (letterbox (globalsFor 133 7) ⟨7, 133⟩).2.inputWidth)| ≤ 1 ∧
    |640 - (2 * (letterbox (globalsFor 133 7) ⟨7, 133⟩).1.topPadding
        + (letterbox (globalsFor 133 7) ⟨7, 133⟩).2.inputHeight)| ≤ 1 :=
  letterbox_padding_arithmetic 133 7 (by decide) (by decide) ⟨7, 133⟩

/-- C10: for every display size `w × h` with `w, h ≥ 1` the rectangle
`(padLeft, padTop, scaledW, scaledH)` that `letterbox` copies into has
non-negative origin and extents and ends inside the 640×640 canvas; for the
configured 720×480 it is `(0, 107, 640, 426)`. -/
theorem letterbox_roi_inside_canvas (w h : ℤ) (hw : 1 ≤ w) (hh : 1 ≤ h) (input : Mat) :
    (0 ≤ (letterbox (globalsFor w h) input).2.roi.x ∧
     0 ≤ (letterbox (globalsFor w h) input).2.roi.y ∧
     0 ≤ (letterbox (globalsFor w h) input).2.roi.width ∧
     0 ≤ (letterbox (globalsFor w h) input).2.roi.height ∧
     (letterbox (globalsFor w h) input).2.roi.x + (letterbox (globalsFor w h) input).2.roi.width
       ≤ (letterbox (globalsFor w h) input).2.canvas.cols ∧
     (letterbox (globalsFor w h) input).2.roi.y + (letterbox (globalsFor w h) input).2.roi.height
       ≤ (letterbox (globalsFor w h) input).2.canvas.rows ∧
     (letterbox (globalsFor w h) input).2.canvas = { rows := 640, cols := 640 }) ∧
    (letterbox (globalsFor 720 480) input).2.roi = { x := 0, y := 107, width := 640, height := 426 } := by
  obtain ⟨iw, ih, hw0, hw1, hh0, hh1, hout, -, -, -, -⟩ := letterbox_shape w h hw hh input
  rw [hout]
  refine ⟨⟨?_, ?_, hw0, hh0, ?_, ?_, rfl⟩, ?_⟩
  · show 0 ≤ (640 - iw) / 2
    omega
  · show 0 ≤ (640 - ih) / 2
    omega
  · show (640 - iw) / 2 + iw ≤ 640
    omega
  · show (640 - ih) / 2 + ih ≤ 640
    omega
  · have h := (letterbox_configured input).1
    have hg : globalsFor 720 480 = initialGlobals := rfl
    rw [hg, h]

theorem letterbox_roi_inside_canvas_witness :
    (0 ≤ (letterbox (globalsFor 1 10000) ⟨10000, 1⟩).2.roi.x ∧
     0 ≤ (letterbox (globalsFor 1 10000) ⟨10000, 1⟩).2.roi.y ∧
     0 ≤ (letterbox (globalsFor 1 10000) ⟨10000, 1⟩).2.roi.width ∧
     0 ≤ (letterbox (globalsFor 1 10000) ⟨10000, 1⟩).2.roi.height ∧
     (letterbox (globalsFor 1 10000) ⟨10000, 1⟩).2.roi.x
         + (letterbox (globalsFor 1 10000) ⟨10000, 1⟩).2.roi.width
       ≤ (letterbox (globalsFor 1 10000) ⟨10000, 1⟩).2.canvas.cols ∧
     (letterbox (globalsFor 1 10000) ⟨10000, 1⟩).2.roi.y
         + (letterbox (globalsFor 1 10000) ⟨10000, 1⟩).2.roi.height
       ≤ (letterbox (globalsFor 1 10000) ⟨10000, 1⟩).2.canvas.rows ∧
     (letterbox (globalsFor 1 10000) ⟨10000, 1⟩).2.canvas = { rows := 640, cols := 640 }) ∧
    (letterbox (globalsFor 720 480) ⟨10000, 1⟩).2.roi
      = { x := 0, y := 107, width := 640, height := 426 } :=
  letterbox_roi_inside_canvas 1 10000 (by decide) (by decide) ⟨10000, 1⟩

/-- C3, as stated, fails: with the program's globals (display size 720×480)
and a 640×640 input image, `letterbox` stores the scale `14913081/2^24`
(about 0.889) and not `min(640/640, 640/640) = 1`; and the same image gives
another scale once the global display size is 640×640. -/
theorem letterbox_scale_not_from_input :
    (letterbox initialGlobals ⟨640, 640⟩).1.scale = 14913081 / 16777216 ∧
    specScale ⟨640, 640⟩ = 1 ∧
    (letterbox initialGlobals ⟨640, 640⟩).1.scale ≠ specScale ⟨640, 640⟩ ∧
    (letterbox (globalsFor 640 640) ⟨640, 640⟩).1.scale
      ≠ (letterbox initialGlobals ⟨640, 640⟩).1.scale := by
  have h1 : (letterbox initialGlobals ⟨640, 640⟩).1.scale = 14913081 / 16777216 := by
    rw [(letterbox_configured ⟨640, 640⟩).2]
  have h2 : specScale ⟨640, 640⟩ = 1 := by
    simp [specScale, floatOfInt, f32div, roundF32_640, roundF32_one]
  have h3 : (letterbox (globalsFor 640 640) ⟨640, 640⟩).1.scale = 1 := by
    rw [letterbox_scale]
    simp [floatOfInt, f32div, roundF32_640, roundF32_one]
  refine ⟨h1, h2, ?_, ?_⟩
  · rw [h1, h2]; norm_num
  · rw [h1, h3]; norm_num

/-- C3, amended: the scale `letterbox` stores is
`min(model_width/width, model_height/height)` over the global display and
model sizes; the scale, the paddings and the copied rectangle are the same for
any two calls whose globals agree on `width`, `height`, `model_width` and
`model_height`, whatever the two input images and whatever `scale`,
`leftPadding`, `topPadding` held before; and when the model size is 640×640
and the input image has the global display size, the scale is
`min(640/srcW, 640/srcH)` over the image's own dimensions. -/
theorem letterbox_function_of_globals (g g' : Globals) (input input' : Mat)
    (hw : g.width = g'.width) (hh : g.height = g'.height)
    (hmw : g.model_width = g'.model_width) (hmh : g.model_height = g'.model_height) :
    (letterbox g input).1.scale
      = min (f32div (floatOfInt g.model_width) (floatOfInt g.width))
          (f32div (floatOfInt g.model_height) (floatOfInt g.height)) ∧
    (letterbox g input).1.scale = (letterbox g' input').1.scale ∧
    (letterbox g input).1.leftPadding = (letterbox g' input').1.leftPadding ∧
    (letterbox g input).1.topPadding = (letterbox g' input').1.topPadding ∧
    (letterbox g input).2.roi = (letterbox g' input').2.roi ∧
    (g.model_width = 640 → g.model_height = 640 → input.cols = g.width → input.rows = g.height →
      (letterbox g input).1.scale = specScale input) := by
  have hmin : (letterbox g input).1.scale
      = min (f32div (floatOfInt g.model_width) (floatOfInt g.width))
          (f32div (floatOfInt g.model_height) (floatOfInt g.height)) := by
    simp only [letterbox]
    rcases lt_or_le (f32div (floatOfInt g.model_width) (floatOfInt g.width))
      (f32div (floatOfInt g.model_height) (floatOfInt g.height)) with hlt | hle
    · rw [if_pos hlt, min_eq_left hlt.le]
    · rw [if_neg (not_lt.mpr hle), min_eq_right hle]
  refine ⟨hmin, ?_, ?_, ?_, ?_, ?_⟩
  · simp only [letterbox, hw, hh, hmw, hmh]
  · simp only [letterbox, hw, hh, hmw, hmh]
  · simp only [letterbox, hw, hh, hmw, hmh]
  · simp only [letterbox, hw, hh, hmw, hmh]
  · intro h1 h2 h3 h4
    rw [hmin, h1, h2, ← h3, ← h4]
    simp [specScale, floatOfInt, roundF32_640]

theorem letterbox_function_of_globals_witness :
    (letterbox initialGlobals ⟨480, 720⟩).1.scale
      = min (f32div (floatOfInt initialGlobals.model_width) (floatOfInt initialGlobals.width))
          (f32div (floatOfInt initialGlobals.model_height) (floatOfInt initialGlobals.height)) ∧
    (letterbox initialGlobals ⟨480, 720⟩).1.scale
      = (letterbox { initialGlobals with scale := 1, leftPadding := 5, topPadding := 7 }
          ⟨640, 640⟩).1.scale ∧
    (letterbox initialGlobals ⟨480, 720⟩).1.leftPadding
      = (letterbox { initialGlobals with scale := 1, leftPadding := 5, topPadding := 7 }
          ⟨640, 640⟩).1.leftPadding ∧
    (letterbox initialGlobals ⟨480, 720⟩).1.topPadding
      = (letterbox { initialGlobals with scale := 1, leftPadding := 5, topPadding := 7 }
          ⟨640, 640⟩).1.topPadding ∧
    (letterbox initialGlobals ⟨480, 720⟩).2.roi
      = (letterbox { initialGlobals with scale := 1, leftPadding := 5, topPadding := 7 }
          ⟨640, 640⟩).2.roi ∧
    (initialGlobals.model_width = 640 → initialGlobals.model_height = 640 →
      (⟨480, 720⟩ : Mat).cols = initialGlobals.width →
      (⟨480, 720⟩ : Mat).rows = initialGlobals.height →
      (letterbox initialGlobals ⟨480, 720⟩).1.scale = specScale ⟨480, 720⟩) :=
  letterbox_function_of_globals initialGlobals
    { initialGlobals with scale := 1, leftPadding := 5, topPadding := 7 } ⟨480, 720⟩ ⟨640, 640⟩
    rfl rfl rfl rfl

/-! ## Strings and routing -/

theorem strstr_isSome_iff (hay needle : List Char) :
    (strstr hay needle).isSome = true ↔ needle <:+: hay := by
  induction hay with
  | nil =>
    rw [List.infix_nil]
    cases needle <;> simp [strstr]
  | cons c hay ih =>
    have hs : strstr (c :: hay) needle
        = if needle.isPrefixOf (c :: hay) then some 0 else (strstr hay needle).map (· + 1) := by
      rw [strstr]
    rw [List.infix_cons_iff, ← ih, ← List.isPrefixOf_iff_prefix, hs]
    by_cases hp : needle.isPrefixOf (c :: hay) = true
    · simp [hp]
    · simp [hp]

theorem takeWhile_followed_by_NUL (s rest : List Char) :
    (s ++ NUL :: rest).takeWhile (· ≠ NUL) = s.takeWhile (· ≠ NUL) := by
  induction s with
  | nil => simp [List.takeWhile]
  | cons c s ih =>
    by_cases hc : c = NUL
    · simp [List.takeWhile, hc]
    · simpa [List.takeWhile, hc] using ih

theorem cString_followed_by_NUL (s rest : List Char) :
    cString (s ++ NUL :: rest) = some (s.takeWhile (· ≠ NUL)) := by
  unfold cString
  rw [if_pos (by simp), takeWhile_followed_by_NUL]

/-- When the byte that follows the received request in the buffer is a
terminator, the string `strstr` scans is the request up to its first
terminator. -/
theorem cString_readInto (buffer request : List Char) (hlen : request.length ≤ BUFFER_SIZE)
    (hterm : (buffer.drop request.length).head? = some NUL) :
    cString (readInto buffer request) = some (request.takeWhile (· ≠ NUL)) := by
  unfold readInto
  rw [List.take_of_length_le hlen]
  cases hd : buffer.drop request.length with
  | nil => rw [hd] at hterm; simp at hterm
  | cons c rest =>
    rw [hd] at hterm
    simp only [List.head?_cons, Option.some.injEq] at hterm
    rw [hterm]
    exact cString_followed_by_NUL request rest

theorem route_readInto (buffer request : List Char) (hlen : request.length ≤ BUFFER_SIZE)
    (hterm : (buffer.drop request.length).head? = some NUL) :
    route (readInto buffer request)
      = some (if imageNeedle <:+: request.takeWhile (· ≠ NUL) then Response.image
          else Response.html) := by
  unfold route
  rw [cString_readInto buffer request hlen hterm]
  simp only [Option.map_some', strstr_isSome_iff]

/-! ## Traces of the image handler -/

theorem underLock_drawLoop (coco_cls_to_name : ℤ → List Char)
    (dets : List object_detect_result) (rest : List Ev) :
    underLock true (drawLoop coco_cls_to_name dets ++ rest)
      = drawLoop coco_cls_to_name dets ++ underLock true rest := by
  induction dets with
  | nil => rfl
  | cons d ds ih => simp [drawLoop, drawDetection, underLock, ih]

theorem outsideLock_drawLoop (coco_cls_to_name : ℤ → List Char)
    (dets : List object_detect_result) (rest : List Ev) :
    outsideLock true (drawLoop coco_cls_to_name dets ++ rest) = outsideLock true rest := by
  induction dets with
  | nil => rfl
  | cons d ds ih => simp [drawLoop, drawDetection, outsideLock, ih]

theorem written_drawLoop (coco_cls_to_name : ℤ → List Char)
    (dets : List object_detect_result) (rest : List Ev) :
    written (drawLoop coco_cls_to_name dets ++ rest) = written rest := by
  induction dets with
  | nil => rfl
  | cons d ds ih => simp [drawLoop, drawDetection, written, ih]

theorem drawDetections_eq_drawLoop (coco_cls_to_name : ℤ → List Char)
    (dets : List object_detect_result) :
    drawDetections coco_cls_to_name dets = drawLoop coco_cls_to_name dets := by
  cases dets <;> rfl

theorem imageHandler_eq (coco_cls_to_name : ℤ → List Char)
    (dets : List object_detect_result) (jpeg_buffer : List Char) :
    imageHandler coco_cls_to_name dets jpeg_buffer
      = Ev.lock :: Ev.copyFrame :: (drawLoop coco_cls_to_name dets
          ++ [Ev.imencode, Ev.unlock, Ev.write (response_header jpeg_buffer),
              Ev.write jpeg_buffer]) := by
  simp [imageHandler, drawDetections_eq_drawLoop]

/-! ## Printf conversions -/

theorem toDigits_length_le (n e : ℕ) (h : n < 10 ^ e) (he : 0 < e) :
    (Nat.toDigits 10 n).length ≤ e :=
  Nat.toDigitsCore_length 10 (by decide) (n + 1) n e h he

theorem toInt32_of_lt (n : ℕ) (h : n < 2 ^ 31) : toInt32 n = (n : ℤ) := by
  have h32 : n % 2 ^ 32 = n := Nat.mod_eq_of_lt (by omega)
  unfold toInt32
  rw [h32, if_pos h]

theorem fmt_d_natCast (n : ℕ) : fmt_d (n : ℤ) = Nat.toDigits 10 n := by
  unfold fmt_d
  rw [if_neg (by omega), Int.natAbs_ofNat]

theorem response_header_eq (jpeg_buffer : List Char) (h : jpeg_buffer.length < 2 ^ 31) :
    response_header jpeg_buffer
      = "HTTP/1.1 200 OK\r\nContent-Type: image/jpeg\r\nContent-Length: ".toList
        ++ Nat.toDigits 10 jpeg_buffer.length ++ "\r\nConnection: close\r\n\r\n".toList := by
  have hd : (Nat.toDigits 10 jpeg_buffer.length).length ≤ 10 :=
    toDigits_length_le _ 10 (by omega) (by decide)
  unfold response_header snprintf
  rw [toInt32_of_lt _ h, fmt_d_natCast]
  apply List.take_of_length_le
  simp only [List.length_append]
  have h1 : "HTTP/1.1 200 OK\r\nContent-Type: image/jpeg\r\nContent-Length: ".toList.length = 59 := by
    decide
  have h2 : "\r\nConnection: close\r\n\r\n".toList.length = 23 := by decide
  rw [h1, h2]
  omega

theorem fmt_1f_length (x : ℚ) (h0 : 0 ≤ x) (h1 : x ≤ 100 * (1 + 1 / 8388608)) :
    (fmt_1f x).length ≤ 5 := by
  have habs : |x| = x := abs_of_nonneg h0
  have hle := roundHalfEven_le (x * 10)
  have hge := roundHalfEven_ge (x * 10)
  have hlt : ((roundHalfEven (x * 10) : ℤ) : ℚ) < ((1001 : ℤ) : ℚ) := by
    have : (100 : ℚ) * (1 + 1 / 8388608) * 10 + 1 / 2 < 1001 := by norm_num
    push_cast
    linarith
  have hgt : (((-1 : ℤ)) : ℚ) < ((roundHalfEven (x * 10) : ℤ) : ℚ) := by
    push_cast
    linarith
  have hlt' := Int.cast_lt.mp hlt
  have hgt' := Int.cast_lt.mp hgt
  have hk : (roundHalfEven (x * 10)).natAbs ≤ 1000 := by omega
  have hint : (Nat.toDigits 10 ((roundHalfEven (x * 10)).natAbs / 10)).length ≤ 3 :=
    toDigits_length_le _ 3 (by omega) (by decide)
  have hfrac : (Nat.toDigits 10 ((roundHalfEven (x * 10)).natAbs % 10)).length ≤ 1 :=
    toDigits_length_le _ 1 (by omega) (by decide)
  unfold fmt_1f
  simp only [habs, if_neg (not_lt.mpr h0), List.length_append, List.length_cons]
  omega

/-- The label is not cut by the 128-byte buffer when the class name has at
most 120 characters and the confidence lies in `[0, 1]`. -/
theorem label_eq (coco_cls_to_name : ℤ → List Char) (det : object_detect_result)
    (hname : (coco_cls_to_name det.cls_id).length ≤ 120)
    (hprop : 0 ≤ det.prop ∧ det.prop ≤ 1) :
    label coco_cls_to_name det
      = coco_cls_to_name det.cls_id ++ ' ' :: fmt_1f (f32mul det.prop 100) ++ ['%'] := by
  have hx0 : 0 ≤ det.prop * 100 := by linarith [hprop.1]
  have h0 : 0 ≤ f32mul det.prop 100 := roundF32_nonneg _ hx0
  have h1 : f32mul det.prop 100 ≤ 100 * (1 + 1 / 8388608) := by
    have := roundF32_le _ hx0
    unfold f32mul
    have h2 : det.prop * 100 * (1 + 1 / 8388608) ≤ 100 * (1 + 1 / 8388608) := by
      linarith [hprop.2]
    linarith
  have hlen := fmt_1f_length _ h0 h1
  unfold label snprintf
  apply List.take_of_length_le
  simp only [List.length_append, List.length_cons, List.length_nil]
  omega

theorem drawLoop_spelled_out (coco_cls_to_name : ℤ → List Char)
    (dets : List object_detect_result)
    (hname : ∀ d ∈ dets, (coco_cls_to_name d.cls_id).length ≤ 120)
    (hprop : ∀ d ∈ dets, 0 ≤ d.prop ∧ d.prop ≤ 1) :
    drawLoop coco_cls_to_name dets
      = dets.flatMap fun d =>
          [Ev.rectangle (d.box.left, d.box.top) (d.box.right, d.box.bottom),
           Ev.putText (coco_cls_to_name d.cls_id ++ ' ' :: fmt_1f (f32mul d.prop 100) ++ ['%'])
             (d.box.left, d.box.top - 10)] := by
  induction dets with
  | nil => rfl
  | cons d rest ih =>
    have hd := label_eq coco_cls_to_name d (hname d (List.mem_cons_self _ _))
      (hprop d (List.mem_cons_self _ _))
    have ih' := ih (fun e he => hname e (List.mem_cons_of_mem _ he))
      (fun e he => hprop e (List.mem_cons_of_mem _ he))
    simp only [drawLoop, drawDetection, hd, ih', List.flatMap_cons]

theorem roundF32_conf95 : roundF32 (95 / 100) = 15938355 / 16777216 := by
  apply roundF32_eval (95 / 100) (15938355 / 16777216) (-1) 15938355 <;> norm_num

theorem roundF32_conf95_percent : roundF32 (15938355 / 16777216 * 100) = 95 := by
  apply roundF32_eval (15938355 / 16777216 * 100) 95 6 12451840 <;> norm_num

theorem fmt_1f_95 : fmt_1f 95 = "95.0".toList := by
  have h : roundHalfEven (|(95 : ℚ)| * 10) = 950 :=
    roundHalfEven_eq _ 950 (by norm_num) (by norm_num)
  unfold fmt_1f
  simp only [h]
  rw [if_neg (by norm_num)]
  decide

/-! ## Properties of the snapshot server -/

/-- C4, as stated, fails: in the trace of the image handler the JPEG encoding
happens while `frame_mutex` is held, and so do the rectangle and the label of
a detection. -/
theorem encode_and_draw_under_lock :
    Ev.imencode ∈ underLock false (imageHandler (fun _ => "person".toList) [] []) ∧
    isDrawOrEncode Ev.imencode = true ∧
    Ev.rectangle (10, 10) (100, 100)
      ∈ underLock false (imageHandler (fun _ => "person".toList) [⟨⟨10, 10, 100, 100⟩, 1, 0⟩] []) ∧
    isDrawOrEncode (Ev.rectangle (10, 10) (100, 100)) = true ∧
    ¬ (∀ e ∈ underLock false (imageHandler (fun _ => "person".toList) [] []),
        isDrawOrEncode e = false) := by
  have h1 : underLock false (imageHandler (fun _ => "person".toList) [] [])
      = [Ev.copyFrame, Ev.imencode] := by
    simp [imageHandler, drawDetections, underLock]
  have h2 : underLock false
      (imageHandler (fun _ => "person".toList) [⟨⟨10, 10, 100, 100⟩, 1, 0⟩] [])
      = [Ev.copyFrame, Ev.rectangle (10, 10) (100, 100),
         Ev.putText (label (fun _ => "person".toList) ⟨⟨10, 10, 100, 100⟩, 1, 0⟩) (10, 10 - 10),
         Ev.imencode] := by
    simp [imageHandler, drawDetections, drawLoop, drawDetection, underLock]
  refine ⟨?_, rfl, ?_, rfl, ?_⟩
  · rw [h1]; simp
  · rw [h2]; simp
  · rw [h1]
    intro h
    have := h Ev.imencode (by simp)
    simp [isDrawOrEncode] at this

/-- C4, amended: in the image handler `frame_mutex` is held from before the
copy of the current frame until after the JPEG encoding, so the frame copy,
every drawing call and the encoding happen while it is held, in that order;
the only events after the release are the two writes of the header and of the
JPEG bytes. -/
theorem lock_spans_copy_draw_encode (coco_cls_to_name : ℤ → List Char)
    (current_detections : List object_detect_result) (jpeg_buffer : List Char) :
    underLock false (imageHandler coco_cls_to_name current_detections jpeg_buffer)
      = Ev.copyFrame :: drawDetections coco_cls_to_name current_detections ++ [Ev.imencode] ∧
    outsideLock false (imageHandler coco_cls_to_name current_detections jpeg_buffer)
      = [Ev.write (response_header jpeg_buffer), Ev.write jpeg_buffer] ∧
    (∀ e ∈ imageHandler coco_cls_to_name current_detections jpeg_buffer,
      isDrawOrEncode e = true →
        e ∈ underLock false (imageHandler coco_cls_to_name current_detections jpeg_buffer) ∧
        e ∉ outsideLock false (imageHandler coco_cls_to_name current_detections jpeg_buffer)) := by
  have hu : underLock false (imageHandler coco_cls_to_name current_detections jpeg_buffer)
      = Ev.copyFrame :: drawDetections coco_cls_to_name current_detections ++ [Ev.imencode] := by
    rw [imageHandler_eq, drawDetections_eq_drawLoop]
    show Ev.copyFrame :: underLock true (drawLoop coco_cls_to_name current_detections ++ _) = _
    rw [underLock_drawLoop]
    rfl
  have ho : outsideLock false (imageHandler coco_cls_to_name current_detections jpeg_buffer)
      = [Ev.write (response_header jpeg_buffer), Ev.write jpeg_buffer] := by
    rw [imageHandler_eq]
    show outsideLock true (drawLoop coco_cls_to_name current_detections ++ _) = _
    rw [outsideLock_drawLoop]
    rfl
  refine ⟨hu, ho, ?_⟩
  intro e he hde
  rw [hu, ho]
  have hcases : e = Ev.lock ∨ e = Ev.copyFrame
      ∨ e ∈ drawDetections coco_cls_to_name current_detections ∨ e = Ev.imencode
      ∨ e = Ev.unlock ∨ e = Ev.write (response_header jpeg_buffer) ∨ e = Ev.write jpeg_buffer := by
    simpa [imageHandler, or_assoc] using he
  have hnw : ∀ bytes, e ≠ Ev.write bytes := by
    intro bytes hb
    subst hb
    simp [isDrawOrEncode] at hde
  constructor
  · rcases hcases with h | h | h | h | h | h | h
    · subst h; simp [isDrawOrEncode] at hde
    · subst h; simp [isDrawOrEncode] at hde
    · simp [h]
    · simp [h]
    · subst h; simp [isDrawOrEncode] at hde
    · exact absurd h (hnw _)
    · exact absurd h (hnw _)
  · intro hmem
    simp only [List.mem_cons, List.mem_singleton, List.not_mem_nil, or_false] at hmem
    rcases hmem with h | h
    · exact hnw _ h
    · exact hnw _ h

/-- C5, as stated, fails: the request `GET /image.jpgx HTTP/1.1` has the path
`/image.jpgx`, which is not the image resource, and a `POST /upload` whose body
holds the text `GET /image.jpg` has the path `/upload`; both are answered with
the image response, not with the HTML page. -/
theorem image_for_other_paths :
    specRequestPath "GET /image.jpgx HTTP/1.1\r\n\r\n".toList = "/image.jpgx".toList ∧
    specIsImagePath "GET /image.jpgx HTTP/1.1\r\n\r\n".toList = false ∧
    (handleConnection (fun _ => "person".toList) [] [] zeroBuffer
        "GET /image.jpgx HTTP/1.1\r\n\r\n".toList).2
      = some (imageHandler (fun _ => "person".toList) [] [] ++ [Ev.close]) ∧
    specRequestPath "POST /upload HTTP/1.1\r\n\r\nGET /image.jpg".toList = "/upload".toList ∧
    specIsImagePath "POST /upload HTTP/1.1\r\n\r\nGET /image.jpg".toList = false ∧
    (handleConnection (fun _ => "person".toList) [] [] zeroBuffer
        "POST /upload HTTP/1.1\r\n\r\nGET /image.jpg".toList).2
      = some (imageHandler (fun _ => "person".toList) [] [] ++ [Ev.close]) := by
  have hr1 : route (readInto zeroBuffer "GET /image.jpgx HTTP/1.1\r\n\r\n".toList)
      = some Response.image := by decide
  have hr2 : route (readInto zeroBuffer "POST /upload HTTP/1.1\r\n\r\nGET /image.jpg".toList)
      = some Response.image := by decide
  refine ⟨by decide, by decide, ?_, by decide, by decide, ?_⟩
  · simp only [handleConnection, hr1, Option.map_some', respond]
  · simp only [handleConnection, hr2, Option.map_some', respond]

/-- C5, amended: for every request of at most 1024 bytes that is followed in
the buffer by a terminator, `web_server` answers with the static HTML page
exactly when the request bytes before the first terminator do not contain the
byte sequence `GET /image.jpg`, and with the image response exactly when they
contain it anywhere. -/
theorem html_unless_needle (coco_cls_to_name : ℤ → List Char)
    (current_detections : List object_detect_result) (jpeg_buffer : List Char)
    (buffer request : List Char) (hlen : request.length ≤ BUFFER_SIZE)
    (hterm : (buffer.drop request.length).head? = some NUL) :
    ((handleConnection coco_cls_to_name current_detections jpeg_buffer buffer request).2
        = some [Ev.write html_response, Ev.close]
      ↔ ¬ imageNeedle <:+: request.takeWhile (· ≠ NUL)) ∧
    ((handleConnection coco_cls_to_name current_detections jpeg_buffer buffer request).2
        = some (imageHandler coco_cls_to_name current_detections jpeg_buffer ++ [Ev.close])
      ↔ imageNeedle <:+: request.takeWhile (· ≠ NUL)) := by
  have hr := route_readInto buffer request hlen hterm
  have hne : imageHandler coco_cls_to_name current_detections jpeg_buffer ++ [Ev.close]
      ≠ [Ev.write html_response, Ev.close] := by
    rw [imageHandler_eq]
    simp
  have h2 : (handleConnection coco_cls_to_name current_detections jpeg_buffer buffer request).2
      = some (respond coco_cls_to_name current_detections jpeg_buffer
          (if imageNeedle <:+: request.takeWhile (· ≠ NUL) then Response.image
            else Response.html) ++ [Ev.close]) := by
    simp only [handleConnection, hr, Option.map_some']
  rw [h2]
  by_cases hin : imageNeedle <:+: request.takeWhile (· ≠ NUL)
  · rw [if_pos hin]
    refine ⟨⟨fun h => absurd (Option.some.inj h) hne, fun h => absurd hin h⟩,
      ⟨fun _ => hin, fun _ => rfl⟩⟩
  · rw [if_neg hin]
    refine ⟨⟨fun _ => hin, fun _ => rfl⟩,
      ⟨fun h => absurd (Option.some.inj h).symm hne, fun h => absurd h hin⟩⟩

theorem html_unless_needle_witness :
    "GET /favicon.ico HTTP/1.1\r\n\r\n".toList.length ≤ BUFFER_SIZE ∧
    (zeroBuffer.drop "GET /favicon.ico HTTP/1.1\r\n\r\n".toList.length).head? = some NUL ∧
    ((handleConnection (fun _ => "person".toList) [] [] zeroBuffer
          "GET /favicon.ico HTTP/1.1\r\n\r\n".toList).2
        = some [Ev.write html_response, Ev.close]
      ↔ ¬ imageNeedle <:+: "GET /favicon.ico HTTP/1.1\r\n\r\n".toList.takeWhile (· ≠ NUL)) ∧
    ((handleConnection (fun _ => "person".toList) [] [] zeroBuffer
          "GET /favicon.ico HTTP/1.1\r\n\r\n".toList).2
        = some (imageHandler (fun _ => "person".toList) [] [] ++ [Ev.close])
      ↔ imageNeedle <:+: "GET /favicon.ico HTTP/1.1\r\n\r\n".toList.takeWhile (· ≠ NUL)) :=
  ⟨by decide, by decide,
   html_unless_needle (fun _ => "person".toList) [] [] zeroBuffer
     "GET /favicon.ico HTTP/1.1\r\n\r\n".toList (by decide) (by decide)⟩

/-- C6: the answer to a connection depends on what earlier connections left
in the buffer.  Starting from a buffer of terminators, the request
`GET / HTTP/1.1` gets the HTML page when it comes first and the image when it
follows a `POST` whose body holds `GET /image.jpg`; a connection whose read
stores nothing gets the HTML page when it comes first and the image when it
follows an image request. -/
theorem stale_buffer_changes_route :
    serveAll zeroBuffer ["GET / HTTP/1.1\r\n\r\n".toList] = [some Response.html] ∧
    serveAll zeroBuffer
        ["POST /upload HTTP/1.1\r\n\r\nGET /image.jpg".toList, "GET / HTTP/1.1\r\n\r\n".toList]
      = [some Response.image, some Response.image] ∧
    serveAll zeroBuffer [[]] = [some Response.html] ∧
    serveAll zeroBuffer ["GET /image.jpg?17 HTTP/1.1\r\n\r\n".toList, []]
      = [some Response.image, some Response.image] := by
  refine ⟨by decide, by decide, by decide, by decide⟩

/-- C7: for every image request whose JPEG has `n < 2^31` bytes, the bytes
handed to `write` are the header `HTTP/1.1 200 OK`, `Content-Type: image/jpeg`,
`Content-Length: n` in decimal, `Connection: close`, an empty line, not cut by
the 512-byte buffer, followed by exactly the `n` JPEG bytes. -/
theorem image_response_framing (coco_cls_to_name : ℤ → List Char)
    (current_detections : List object_detect_result) (jpeg_buffer : List Char)
    (h : jpeg_buffer.length < 2 ^ 31) :
    written (imageHandler coco_cls_to_name current_detections jpeg_buffer ++ [Ev.close])
      = "HTTP/1.1 200 OK\r\nContent-Type: image/jpeg\r\nContent-Length: ".toList
        ++ Nat.toDigits 10 jpeg_buffer.length ++ "\r\nConnection: close\r\n\r\n".toList
        ++ jpeg_buffer ∧
    (response_header jpeg_buffer).length < 512 := by
  have hh := response_header_eq jpeg_buffer h
  constructor
  · rw [imageHandler_eq]
    show written (drawLoop coco_cls_to_name current_detections ++ _ ++ [Ev.close]) = _
    rw [List.append_assoc, written_drawLoop, ← hh]
    simp [written]
  · have hd : (Nat.toDigits 10 jpeg_buffer.length).length ≤ 10 :=
      toDigits_length_le _ 10 (by omega) (by decide)
    have h1 : "HTTP/1.1 200 OK\r\nContent-Type: image/jpeg\r\nContent-Length: ".toList.length
        = 59 := by decide
    have h2 : "\r\nConnection: close\r\n\r\n".toList.length = 23 := by decide
    rw [hh]
    simp only [List.length_append]
    rw [h1, h2]
    omega

theorem image_response_framing_witness :
    "JFIF".toList.length < 2 ^ 31 ∧
    written (imageHandler (fun _ => "person".toList) [⟨⟨10, 10, 100, 100⟩, 1, 0⟩] "JFIF".toList
        ++ [Ev.close])
      = "HTTP/1.1 200 OK\r\nContent-Type: image/jpeg\r\nContent-Length: ".toList
        ++ Nat.toDigits 10 "JFIF".toList.length ++ "\r\nConnection: close\r\n\r\n".toList
        ++ "JFIF".toList ∧
    (response_header "JFIF".toList).length < 512 :=
  ⟨by decide,
   image_response_framing (fun _ => "person".toList) [⟨⟨10, 10, 100, 100⟩, 1, 0⟩] "JFIF".toList
     (by decide)⟩

/-- C9: for every stored detection sequence (class names of at most 120
characters, confidences in `[0, 1]`) the image handler issues, in sequence
order and between the frame copy and the encoding, one rectangle with corners
`(left, top)` and `(right, bottom)` and one label
`<class-name> <confidence*100 with one decimal>%` at `(left, top - 10)` per
detection; for the empty sequence it issues no drawing; and the detection
`person`, 0.95, `(10,10,100,100)` gives the rectangle `(10,10)-(100,100)` and
the label `person 95.0%`. -/
theorem handler_draws_each_detection (coco_cls_to_name : ℤ → List Char)
    (current_detections : List object_detect_result) (jpeg_buffer : List Char)
    (hname : ∀ d ∈ current_detections, (coco_cls_to_name d.cls_id).length ≤ 120)
    (hprop : ∀ d ∈ current_detections, 0 ≤ d.prop ∧ d.prop ≤ 1) :
    imageHandler coco_cls_to_name current_detections jpeg_buffer
      = [Ev.lock, Ev.copyFrame]
        ++ (current_detections.flatMap fun d =>
          [Ev.rectangle (d.box.left, d.box.top) (d.box.right, d.box.bottom),
           Ev.putText (coco_cls_to_name d.cls_id ++ ' ' :: fmt_1f (f32mul d.prop 100) ++ ['%'])
             (d.box.left, d.box.top - 10)])
        ++ [Ev.imencode, Ev.unlock, Ev.write (response_header jpeg_buffer),
            Ev.write jpeg_buffer] ∧
    imageHandler coco_cls_to_name [] jpeg_buffer
      = [Ev.lock, Ev.copyFrame, Ev.imencode, Ev.unlock, Ev.write (response_header jpeg_buffer),
         Ev.write jpeg_buffer] ∧
    (coco_cls_to_name 0 = "person".toList →
      imageHandler coco_cls_to_name [⟨⟨10, 10, 100, 100⟩, floatOfRat (95 / 100), 0⟩] jpeg_buffer
        = [Ev.lock, Ev.copyFrame, Ev.rectangle (10, 10) (100, 100),
           Ev.putText "person 95.0%".toList (10, 0), Ev.imencode, Ev.unlock,
           Ev.write (response_header jpeg_buffer), Ev.write jpeg_buffer]) := by
  refine ⟨?_, rfl, ?_⟩
  · rw [imageHandler_eq, drawLoop_spelled_out coco_cls_to_name current_detections hname hprop]
    simp
  · intro hperson
    have hl : label coco_cls_to_name ⟨⟨10, 10, 100, 100⟩, floatOfRat (95 / 100), 0⟩
        = "person 95.0%".toList := by
      simp only [label, floatOfRat, f32mul, roundF32_conf95, roundF32_conf95_percent, fmt_1f_95,
        hperson]
      decide
    rw [imageHandler_eq]
    simp only [drawLoop, drawDetection, hl]
    rfl

theorem handler_draws_each_detection_witness :
    (∀ d ∈ [(⟨⟨10, 10, 100, 100⟩, floatOfRat (95 / 100), 0⟩ : object_detect_result)],
      ((fun _ => "person".toList) d.cls_id : List Char).length ≤ 120) ∧
    (∀ d ∈ [(⟨⟨10, 10, 100, 100⟩, floatOfRat (95 / 100), 0⟩ : object_detect_result)],
      0 ≤ d.prop ∧ d.prop ≤ 1) ∧
    (imageHandler (fun _ => "person".toList)
        [⟨⟨10, 10, 100, 100⟩, floatOfRat (95 / 100), 0⟩] "JFIF".toList
      = [Ev.lock, Ev.copyFrame]
        ++ ([(⟨⟨10, 10, 100, 100⟩, floatOfRat (95 / 100), 0⟩ : object_detect_result)].flatMap
          fun d =>
          [Ev.rectangle (d.box.left, d.box.top) (d.box.right, d.box.bottom),
           Ev.putText ((fun _ => "person".toList) d.cls_id ++ ' '
              :: fmt_1f (f32mul d.prop 100) ++ ['%'])
             (d.box.left, d.box.top - 10)])
        ++ [Ev.imencode, Ev.unlock, Ev.write (response_header "JFIF".toList),
            Ev.write "JFIF".toList] ∧
    imageHandler (fun _ => "person".toList) [] "JFIF".toList
      = [Ev.lock, Ev.copyFrame, Ev.imencode, Ev.unlock, Ev.write (response_header "JFIF".toList),
         Ev.write "JFIF".toList] ∧
    ((fun _ => "person".toList) (0 : ℤ) = "person".toList →
      imageHandler (fun _ => "person".toList)
          [⟨⟨10, 10, 100, 100⟩, floatOfRat (95 / 100), 0⟩] "JFIF".toList
        = [Ev.lock, Ev.copyFrame, Ev.rectangle (10, 10) (100, 100),
           Ev.putText "person 95.0%".toList (10, 0), Ev.imencode, Ev.unlock,
           Ev.write (response_header "JFIF".toList), Ev.write "JFIF".toList])) :=
  have hn : ∀ d ∈ [(⟨⟨10, 10, 100, 100⟩, floatOfRat (95 / 100), 0⟩ : object_detect_result)],
      ((fun _ => "person".toList) d.cls_id : List Char).length ≤ 120 := by
    intro d _
    show "person".toList.length ≤ 120
    decide
  have hp : ∀ d ∈ [(⟨⟨10, 10, 100, 100⟩, floatOfRat (95 / 100), 0⟩ : object_detect_result)],
      0 ≤ d.prop ∧ d.prop ≤ 1 := by
    intro d hd
    rw [List.mem_singleton] at hd
    subst hd
    simp only [floatOfRat, roundF32_conf95]
    norm_num
  ⟨hn, hp, handler_draws_each_detection (fun _ => "person".toList)
    [⟨⟨10, 10, 100, 100⟩, floatOfRat (95 / 100), 0⟩] "JFIF".toList hn hp⟩

/-! ## `main` -/

theorem parse_arguments_show_help (opts : List Char) (config : AppConfig) :
    (parse_arguments opts config).show_help = (config.show_help || decide ('?' ∈ opts)) := by
  induction opts generalizing config with
  | nil => simp [parse_arguments]
  | cons opt rest ih =>
    rw [parse_arguments, ih]
    by_cases hy : opt = 'y'
    · subst hy; simp
    · by_cases hw : opt = 'w'
      · subst hw; simp
      · by_cases hq : opt = '?'
        · subst hq; simp
        · have hq' : ¬ '?' = opt := fun h => hq h.symm
          simp [hy, hw, hq, hq']

theorem loopIteration_not_mem_startup (opts : List Char) (env : Env) (i : ℕ) :
    Act.loopIteration i ∉
      (startWeb (parse_arguments opts defaultConfig) env).2
        ++ (startYolo (startWeb (parse_arguments opts defaultConfig) env).1 env).2 := by
  unfold startWeb startYolo
  split_ifs <;> simp

/-- C8: when help is requested `main` returns 0 after `print_help` alone;
when help is not requested and `RK_MPI_SYS_Init`, `vi_dev_init` or
`vi_chn_init` fails, `main` returns `-1`, which is not zero, without a loop
iteration; in every other case `main` has not returned after any number of
loop iterations, all of which it has run. -/
theorem main_exit_status (opts : List Char) (env : Env) (iterations : ℕ) :
    ('?' ∈ opts → main opts env iterations = { trace := [Act.print_help], status := some 0 }) ∧
    ('?' ∉ opts →
      (env.RK_MPI_SYS_Init_ok = false ∨ env.vi_dev_init_ok = false ∨ env.vi_chn_init_ok = false) →
      (main opts env iterations).status = some (-1) ∧ (-1 : ℤ) ≠ 0 ∧
      ∀ i, Act.loopIteration i ∉ (main opts env iterations).trace) ∧
    ('?' ∉ opts → env.RK_MPI_SYS_Init_ok = true → env.vi_dev_init_ok = true →
      env.vi_chn_init_ok = true →
      (main opts env iterations).status = none ∧
      ∀ i, i < iterations → Act.loopIteration i ∈ (main opts env iterations).trace) := by
  have hhelp := parse_arguments_show_help opts defaultConfig
  refine ⟨?_, ?_, ?_⟩
  · intro h
    have hs : (parse_arguments opts defaultConfig).show_help = true := by
      rw [hhelp]; simp [h]
    simp only [main, hs, if_true]
  · intro h hfail
    have hs : (parse_arguments opts defaultConfig).show_help = false := by
      rw [hhelp]; simp [h, defaultConfig]
    refine ⟨?_, by decide, ?_⟩
    · simp only [main, hs]
      rcases hfail with hf | hf | hf
      · simp [hf]
      · cases env.RK_MPI_SYS_Init_ok <;> simp [hf]
      · cases env.RK_MPI_SYS_Init_ok <;> cases env.vi_dev_init_ok <;> simp [hf]
    · intro i
      have hst := loopIteration_not_mem_startup opts env i
      simp only [List.mem_append, not_or] at hst
      simp only [main, hs]
      rcases hfail with hf | hf | hf
      · simp [hf, hst.1, hst.2]
      · cases env.RK_MPI_SYS_Init_ok <;> simp [hf, hst.1, hst.2]
      · cases env.RK_MPI_SYS_Init_ok <;> cases env.vi_dev_init_ok <;> simp [hf, hst.1, hst.2]
  · intro h h1 h2 h3
    have hs : (parse_arguments opts defaultConfig).show_help = false := by
      rw [hhelp]; simp [h, defaultConfig]
    constructor
    · simp [main, hs, h1, h2, h3]
    · intro i hi
      simp [main, hs, h1, h2, h3, hi]

theorem main_exit_status_witness :
    main ['w', '?', 'y'] ⟨true, true, true, true, true⟩ 3
      = { trace := [Act.print_help], status := some 0 } ∧
    ((main ['w', 'y'] ⟨true, true, true, false, true⟩ 3).status = some (-1) ∧ (-1 : ℤ) ≠ 0 ∧
      ∀ i, Act.loopIteration i ∉ (main ['w', 'y'] ⟨true, true, true, false, true⟩ 3).trace) ∧
    ((main ['w', 'y'] ⟨true, true, true, true, true⟩ 3).status = none ∧
      ∀ i, i < 3 →
        Act.loopIteration i ∈ (main ['w', 'y'] ⟨true, true, true, true, true⟩ 3).trace) :=
  ⟨(main_exit_status ['w', '?', 'y'] ⟨true, true, true, true, true⟩ 3).1 (by decide),
   (main_exit_status ['w', 'y'] ⟨true, true, true, false, true⟩ 3).2.1 (by decide)
     (Or.inr (Or.inl rfl)),
   (main_exit_status ['w', 'y'] ⟨true, true, true, true, true⟩ 3).2.2 (by decide) rfl rfl rfl⟩

/-! ## The shared frame state -/

theorem consistent_init : Consistent Sys.init := by
  simp [Consistent, Sys.init]

theorem consistent_captureStep (config : AppConfig) (hweb : config.enable_web = true)
    (hyolo : config.enable_yolo = true) (s : Sys) (h : Consistent s) (frameOk : Bool) :
    Consistent (captureStep config s frameOk) := by
  obtain ⟨h1, h2, h3, h4, h5, hf, hd, h6⟩ := h
  unfold captureStep
  cases hpc : s.pc with
  | top =>
    have heq := h2 hpc
    cases frameOk with
    | true =>
      simp only [if_true, hweb, hyolo]
      refine ⟨by show s.current_detections ≤ s.iteration + 1; omega, ?_,
        fun _ => ⟨rfl, by show s.current_detections < s.iteration + 1; omega⟩,
        le_refl _, ?_, Or.inr (List.mem_cons_self _ _), ?_, ?_⟩
      · intro hc
        have hc' : CapturePc.inferring = CapturePc.top := hc
        cases hc'
      · intro k hk
        rcases List.mem_cons.mp hk with hk | hk
        · exact Or.inr hk
        · rcases h5 k hk with h | h
          · exact Or.inl h
          · exact Or.inl (by show k ≤ s.current_detections; omega)
      · exact hd.imp id (List.mem_cons_of_mem _)
      · intro snap hsnap
        obtain ⟨a, b, c, c', sf, sd, d⟩ := h6 snap hsnap
        refine ⟨a, by show snap.frame ≤ s.iteration + 1; omega, c, c',
          sf.imp id (List.mem_cons_of_mem _), sd.imp id (List.mem_cons_of_mem _), ?_⟩
        intro k hk
        rcases List.mem_cons.mp hk with hk | hk
        · exact Or.inr (by omega)
        · exact d k hk
    | false =>
      simp only [Bool.false_eq_true, if_false]
      refine ⟨h1, fun _ => heq, ?_, by show s.current_frame ≤ s.iteration + 1; omega, h5, hf, hd,
        h6⟩
      intro hc
      have hc' : CapturePc.top = CapturePc.inferring := hc
      cases hc'
  | inferring =>
    have heq := (h3 hpc).1
    simp only [hweb, if_true]
    refine ⟨by show s.iteration ≤ s.current_frame; omega, fun _ => heq, ?_, h4, ?_, hf, ?_, h6⟩
    · intro hc
      have hc' : CapturePc.top = CapturePc.inferring := hc
      cases hc'
    · intro k hk
      rcases h5 k hk with h | h
      · exact Or.inl (by show k ≤ s.iteration; omega)
      · exact Or.inr h
    · show s.iteration = 0 ∨ s.iteration ∈ s.acquired
      rw [← heq]
      exact hf

theorem consistent_imageRequest (s : Sys) (h : Consistent s) : Consistent (imageRequest s) := by
  obtain ⟨h1, h2, h3, h4, h5, hf, hd, h6⟩ := h
  refine ⟨h1, h2, h3, h4, h5, hf, hd, ?_⟩
  intro snap hsnap
  rcases List.mem_cons.mp hsnap with hs | hs
  · subst hs
    refine ⟨h1, le_refl _, ?_, ?_, hf, hd, ?_⟩
    · intro hdi
      have hnot : s.pc ≠ CapturePc.inferring := by
        intro hc
        simp [hc] at hdi
      have htop : s.pc = CapturePc.top := by
        cases hp : s.pc with
        | top => rfl
        | inferring => exact absurd hp hnot
      exact h2 htop
    · intro hdi
      have hinf : s.pc = CapturePc.inferring := of_decide_eq_true hdi
      exact (h3 hinf).2
    · intro k hk
      rcases h5 k hk with h | h
      · exact Or.inl h
      · exact Or.inr (le_of_eq h.symm)
  · exact h6 snap hs

theorem consistent_run (config : AppConfig) (hweb : config.enable_web = true)
    (hyolo : config.enable_yolo = true) (schedule : List Step) (s : Sys) (h : Consistent s) :
    Consistent (run config s schedule) := by
  induction schedule generalizing s with
  | nil => exact h
  | cons st rest ih =>
    have hstep : Consistent (step config s st) := by
      cases st with
      | capture frameOk => exact consistent_captureStep config hweb hyolo s h frameOk
      | request => exact consistent_imageRequest s h
    exact ih (step config s st) hstep

/-- C1, as stated, fails: with web preview and detection enabled, an image
request served after the third critical section of the capture loop (frame
and detections of iteration 1 stored, frame of iteration 2 stored, inference
of iteration 2 running) reads the frame of iteration 2 together with the
detections of iteration 1. -/
theorem request_pairs_two_iterations :
    (run { show_help := false, enable_yolo := true, enable_web := true } Sys.init
        [Step.capture true, Step.capture true, Step.capture true, Step.request]).served
      = [{ frame := 2, detections := 1, duringInference := true }] ∧
    ¬ (∀ schedule : List Step,
        ∀ snap ∈ (run { show_help := false, enable_yolo := true, enable_web := true } Sys.init
            schedule).served,
          snap.frame = snap.detections) := by
  have h : (run { show_help := false, enable_yolo := true, enable_web := true } Sys.init
        [Step.capture true, Step.capture true, Step.capture true, Step.request]).served
      = [{ frame := 2, detections := 1, duringInference := true }] := by decide
  refine ⟨h, ?_⟩
  intro hall
  have := hall [Step.capture true, Step.capture true, Step.capture true, Step.request]
    { frame := 2, detections := 1, duringInference := true } (by rw [h]; simp)
  simp at this

/-- C1, amended: with web preview and detection enabled, in any interleaving
of capture-loop critical sections with image requests, the frame and the
detections an image request reads were each stored by an iteration that
acquired a frame (or are the initial ones).  A request that is not served
between the two critical sections of an iteration reads the frame and the
detections of the same iteration.  A request served between them reads the
frame of the running iteration with strictly older detections, those of the
latest earlier iteration that acquired a frame (the initial ones if there is
none): no iteration that acquired a frame lies strictly between the two. -/
theorem request_reads_frame_and_previous_detections (config : AppConfig)
    (hweb : config.enable_web = true) (hyolo : config.enable_yolo = true)
    (schedule : List Step) :
    ∀ snap ∈ (run config Sys.init schedule).served,
      (snap.frame = 0 ∨ snap.frame ∈ (run config Sys.init schedule).acquired) ∧
      (snap.detections = 0 ∨ snap.detections ∈ (run config Sys.init schedule).acquired) ∧
      snap.detections ≤ snap.frame ∧
      (snap.duringInference = false → snap.frame = snap.detections) ∧
      (snap.duringInference = true →
        snap.detections < snap.frame ∧
        snap.frame ∈ (run config Sys.init schedule).acquired) ∧
      ∀ k ∈ (run config Sys.init schedule).acquired, ¬ (snap.detections < k ∧ k < snap.frame) := by
  intro snap hsnap
  obtain ⟨-, -, -, -, -, -, -, h6⟩ :=
    consistent_run config hweb hyolo schedule Sys.init consistent_init
  obtain ⟨a, -, c, c', sf, sd, d⟩ := h6 snap hsnap
  refine ⟨sf, sd, a, c, ?_, ?_⟩
  · intro hdi
    have hlt := c' hdi
    refine ⟨hlt, ?_⟩
    rcases sf with h0 | hm
    · omega
    · exact hm
  · intro k hk hcontra
    rcases d k hk with h | h <;> omega

theorem request_reads_frame_and_previous_detections_witness :
    ({ show_help := false, enable_yolo := true, enable_web := true } : AppConfig).enable_web = true ∧
    ({ show_help := false, enable_yolo := true, enable_web := true } : AppConfig).enable_yolo = true ∧
    ∀ snap ∈ (run { show_help := false, enable_yolo := true, enable_web := true } Sys.init
          [Step.capture true, Step.request, Step.capture true, Step.capture false, Step.request,
           Step.capture true, Step.request]).served,
      (snap.frame = 0 ∨ snap.frame ∈
        (run { show_help := false, enable_yolo := true, enable_web := true } Sys.init
          [Step.capture true, Step.request, Step.capture true, Step.capture false, Step.request,
           Step.capture true, Step.request]).acquired) ∧
      (snap.detections = 0 ∨ snap.detections ∈
        (run { show_help := false, enable_yolo := true, enable_web := true } Sys.init
          [Step.capture true, Step.request, Step.capture true, Step.capture false, Step.request,
           Step.capture true, Step.request]).acquired) ∧
      snap.detections ≤ snap.frame ∧
      (snap.duringInference = false → snap.frame = snap.detections) ∧
      (snap.duringInference = true →
        snap.detections < snap.frame ∧
        snap.frame ∈
          (run { show_help := false, enable_yolo := true, enable_web := true } Sys.init
          [Step.capture true, Step.request, Step.capture true, Step.capture false, Step.request,
           Step.capture true, Step.request]).acquired) ∧
      ∀ k ∈ (run { show_help := false, enable_yolo := true, enable_web := true } Sys.init
          [Step.capture true, Step.request, Step.capture true, Step.capture false, Step.request,
           Step.capture true, Step.request]).acquired,
        ¬ (snap.detections < k ∧ k < snap.frame) :=
  ⟨rfl, rfl,
   request_reads_frame_and_previous_detections
     { show_help := false, enable_yolo := true, enable_web := true } rfl rfl
     [Step.capture true, Step.request, Step.capture true, Step.capture false, Step.request,
      Step.capture true, Step.request]⟩

end Luckfox
